import Mathlib

/-!
Verification of the invenio-sipstore archivers against their specification.

The definitions below are shallow embeddings of the Python functions in
`invenio_sipstore/archivers/` (checksum parsing, directory chunking, the
BagIt patch/delta resolution, tag-file generation and the package writer).
Python strings are embedded as `String` or `List Char`, dicts with optional
keys as structures with `Option` fields, and raised exceptions as
`Except String`.  The MD5 digest itself is treated as an abstract parameter
(a field `md5bytes` of the configuration): every claim under study concerns
*what* is hashed and *which* values are recorded, never the internals of the
hash function.
-/

namespace SipStore

/-! ### Python `str.split` on a separator character

Embeds the semantics of CPython `s.split(':')` on a string viewed as a list
of characters: splitting an empty string yields `[[]]`, and every separator
occurrence starts a new group. -/

def pySplit (sep : Char) : List Char → List (List Char)
  | [] => [[]]
  | c :: cs =>
    match pySplit sep cs with
    | [] => [[]]
    | g :: gs => if c = sep then [] :: g :: gs else (c :: g) :: gs

/-- Embedding of `get_checksum` from `invenio_sipstore/archivers.py` (and of
the identical `BagItArchiver._get_checksum` in
`invenio_sipstore/archivers/bagit_archiver.py`):

```
checksum = checksum.split(':')
if checksum[0] != expected or len(checksum) != 2:
    raise AttributeError('Checksum format is not correct.')
else:
    return checksum[1]
```
-/
def get_checksum (checksum : List Char) (expected : List Char) : Except String (List Char) :=
  let parts := pySplit ':' checksum
  if parts.headI ≠ expected ∨ parts.length ≠ 2 then
    Except.error "Checksum format is not correct."
  else
    Except.ok (parts.getD 1 [])

/-- String-typed wrapper of `get_checksum`, used by the manifest generators
(the source calls `self._get_checksum(f['checksum'])` with `expected='md5'`). -/
def getChecksumStr (checksum : String) : Except String String :=
  match get_checksum checksum.toList "md5".toList with
  | Except.ok h => Except.ok (String.mk h)
  | Except.error e => Except.error e

/-! ### `chunks` and the default archive directory builder
(`invenio_sipstore/archivers/utils.py`) -/

/-- One pass of the `for i in n: if acc < len(iterable): yield ...; acc += i`
loop of `chunks` (the list-of-sizes branch).  Python's slice
`iterable[acc:acc+i]` is clamping, embedded as `(s.drop acc).take i`. -/
def chunksGo (s : List Char) : List Nat → Nat → List (List Char)
  | [], _ => []
  | i :: rest, acc =>
    if acc < s.length then ((s.drop acc).take i) :: chunksGo s rest (acc + i)
    else chunksGo s rest acc

/-- Embedding of the list branch of `chunks(iterable, n)` from
`invenio_sipstore/archivers/utils.py`: sizes are the non-negative integers
`n`, and when `sum(n) < len(iterable)` a final chunk size `len(iterable)` is
appended before the loop runs. -/
def chunksL (s : List Char) (n : List Nat) : List (List Char) :=
  let sizes := if n.sum < s.length then n ++ [s.length] else n
  chunksGo s sizes 0

/-- Embedding of `default_archive_directory_builder`:
`list(chunks(str(sip.id), [2, 2]))`. -/
def default_archive_directory_builder (sipId : List Char) : List (List Char) :=
  chunksL sipId [2, 2]

/-! ### Data model

The file-information dictionaries produced by the archivers
(`invenio_sipstore/archivers/base_archiver.py`) are embedded as a structure
with `Option` fields for the keys which may be absent (`file_uuid`,
`filename`, `metadata_id`, `content`, `fetched`). -/

/-- A file-information dictionary (JSON Schema `sipstore/file-v1.0.0.json`). -/
structure FileInfo where
  checksum : String := ""
  size : Nat := 0
  filepath : String := ""
  fullpath : String := ""
  path : String := ""
  file_uuid : Option String := none
  filename : Option String := none
  sipfilepath : String := ""
  metadata_id : Option Nat := none
  content : Option String := none
  fetched : Option Bool := none
  deriving DecidableEq, Inhabited

/-- A `SIPFile` association (`invenio_sipstore/models.py`): logical path
within the submission plus the underlying `FileInstance` (identifier,
checksum, size and — externally owned — byte content). -/
structure SIPFile where
  filepath : String := ""
  file_id : String := ""
  checksum : String := ""
  size : Nat := 0
  deriving DecidableEq, Inhabited

/-- A `SIPMetadataType` (`invenio_sipstore/models.py`): identifier, name and
serialization format. -/
structure SIPMetadataType where
  id : Nat := 0
  name : String := ""
  format : String := ""
  deriving DecidableEq, Inhabited

/-- A `SIPMetadata` entry (`invenio_sipstore/models.py`): typed text blob
attached to a SIP. -/
structure SIPMetadataEntry where
  type : SIPMetadataType := {}
  content : String := ""
  deriving DecidableEq, Inhabited

/-- `fs.path.join` for the relative paths used by the archivers. -/
def pathJoin (a b : String) : String := a ++ "/" ++ b

/-! ### Patch/delta resolution
(`BagItArchiver.create_bagit_metadata`, lines 112-144 of
`invenio_sipstore/archivers/bagit_archiver.py`) -/

/-- Embedding of `BagItArchiver._is_fetched`:
`'fetched' in file_info and file_info['fetched']`. -/
def isFetched (fi : FileInfo) : Bool := fi.fetched.getD false

/-- The dictionary `id2mi = dict((f['file_uuid'], f) for f in prev_files if
'file_uuid' in f)`: lookup returns the *last* entry carrying the key (later
dict insertions overwrite earlier ones). -/
def id2mi (prev_files : List FileInfo) (u : String) : Option FileInfo :=
  (prev_files.filter (fun f => f.file_uuid = some u)).getLast?

/-- The dictionary `id2sf = dict((str(file.file.id), file) for file in
self.sip.files)`, with the same last-insertion-wins lookup semantics. -/
def id2sf (sipfiles : List SIPFile) (u : String) : Option SIPFile :=
  (sipfiles.filter (fun f => f.file_id = u)).getLast?

/-- `manifest_files_s = set(id2mi.keys())`: the set of content identifiers
recorded in the base manifest's data-file entries. -/
def manifest_files_s (prev_files : List FileInfo) : Finset String :=
  (prev_files.filterMap (fun f => f.file_uuid)).toFinset

/-- `sip_files_s = set(id2sf.keys())`: the set of content identifiers of the
current submission's attached files. -/
def sip_files_s (sipfiles : List SIPFile) : Finset String :=
  (sipfiles.map (fun f => f.file_id)).toFinset

/-- The fetched set:
```
if include_missing_files: fetched_uuids = manifest_files_s
else:                     fetched_uuids = manifest_files_s & sip_files_s
``` -/
def fetched_uuids (prev_files : List FileInfo) (sipfiles : List SIPFile)
    (include_missing_files : Bool) : Finset String :=
  if include_missing_files then manifest_files_s prev_files
  else manifest_files_s prev_files ∩ sip_files_s sipfiles

/-- The stored set: `stored_uuids = sip_files_s - manifest_files_s`. -/
def stored_uuids (prev_files : List FileInfo) (sipfiles : List SIPFile) :
    Finset String :=
  sip_files_s sipfiles \ manifest_files_s prev_files

/-- Body of the `for uuid in fetched_uuids` loop: deep-copy the base manifest
entry, overwrite `filename` (preferring the current submission's file when it
attaches the content, i.e. `join(filesdir, id2sf[uuid].filepath)`, falling
back to the base entry's recorded filename) and mark the entry fetched. -/
def fetched_entry (prev_files : List FileInfo) (sipfiles : List SIPFile)
    (filesdir : String) (uuid : String) : FileInfo :=
  let base := (id2mi prev_files uuid).getD default
  let filename : Option String :=
    match id2sf sipfiles uuid with
    | some sf => some (pathJoin filesdir sf.filepath)
    | none => base.filename
  { base with filename := filename, fetched := some true }

/-- An executable enumeration of `fetched_uuids` (the Python `set` is
iterated in an arbitrary order; the embedding iterates first occurrences in
base-manifest order). -/
def fetched_uuid_list (prev_files : List FileInfo) (sipfiles : List SIPFile)
    (include_missing_files : Bool) : List String :=
  let base := (prev_files.filterMap (fun f => f.file_uuid)).dedup
  if include_missing_files then base
  else base.filter (fun u => (sipfiles.map (fun f => f.file_id)).contains u)

/-- An executable enumeration of `stored_uuids`. -/
def stored_uuid_list (prev_files : List FileInfo) (sipfiles : List SIPFile) :
    List String :=
  ((sipfiles.map (fun f => f.file_id)).dedup).filter
    (fun u => !(prev_files.filterMap (fun f => f.file_uuid)).contains u)

/-- The list of fetched file-information entries appended to
`sip_data_files`. -/
def fetched_entries (prev_files : List FileInfo) (sipfiles : List SIPFile)
    (filesdir : String) (include_missing_files : Bool) : List FileInfo :=
  (fetched_uuid_list prev_files sipfiles include_missing_files).map
    (fetched_entry prev_files sipfiles filesdir)

/-- The `SIPFile`s selected for storing: `for uuid in stored_uuids:
sipfiles.append(id2sf[uuid])`. -/
def stored_sipfiles (prev_files : List FileInfo) (sipfiles : List SIPFile) :
    List SIPFile :=
  (stored_uuid_list prev_files sipfiles).filterMap (id2sf sipfiles)

/-! ### UTF-8 encoding

The source hashes `content.encode('utf-8')`; the encoding is embedded
explicitly so that byte lengths are computable. -/

/-- The UTF-8 byte sequence of a single character (standard 1-4 byte
encoding of its code point). -/
def utf8EncodeChar (c : Char) : List Nat :=
  let n := c.toNat
  if n < 0x80 then [n]
  else if n < 0x800 then
    [0xC0 ||| (n >>> 6), 0x80 ||| (n &&& 0x3F)]
  else if n < 0x10000 then
    [0xE0 ||| (n >>> 12), 0x80 ||| ((n >>> 6) &&& 0x3F), 0x80 ||| (n &&& 0x3F)]
  else
    [0xF0 ||| (n >>> 18), 0x80 ||| ((n >>> 12) &&& 0x3F),
     0x80 ||| ((n >>> 6) &&& 0x3F), 0x80 ||| (n &&& 0x3F)]

/-- `s.encode('utf-8')` as a byte list. -/
def utf8Encode (s : String) : List Nat :=
  (s.data.map utf8EncodeChar).flatten

/-! ### Archiver configuration and the manifest builder
(`invenio_sipstore/archivers/base_archiver.py`) -/

/-- The configuration surface consumed by `BaseArchiver` (the
`current_sipstore` proxy and `current_app.config`).  `md5bytes` stands for
`hashlib.md5(·).hexdigest()`, an abstract digest of a byte sequence;
`instance_bytes` stands for the externally-owned byte content of a
`FileInstance`, keyed by its identifier. -/
structure ArchiverCfg where
  md5bytes : List Nat → String
  metadata_types : List String := []
  sipfile_name_formatter : SIPFile → String := fun f => f.filepath
  sipmetadata_name_formatter : SIPMetadataEntry → String :=
    fun m => m.type.name ++ "." ++ m.type.format
  archive_base_uri : String := ""
  archive_subpath : String := ""
  instance_bytes : String → String := fun _ => ""

/-- A `BaseArchiver`/`BagItArchiver` instance together with its SIP: the
attached `SIPFile`s and `SIPMetadata` entries, the target sub-directories and
the optional filename-mapping file, plus the BagIt tags. -/
structure Archiver where
  cfg : ArchiverCfg
  sip_files : List SIPFile := []
  sip_metadata : List SIPMetadataEntry := []
  data_dir : String := "files"
  metadata_dir : String := "metadata"
  extra_dir : String := ""
  filenames_mapping_file : Option String := none
  tags : List (String × String) := []

/-- Embedding of `BaseArchiver._get_fullpath`:
`os.path.join(base_uri, subpath, filepath)`. -/
def getFullpath (a : Archiver) (filepath : String) : String :=
  pathJoin (pathJoin a.cfg.archive_base_uri a.cfg.archive_subpath) filepath

/-- Embedding of `BaseArchiver._generate_sipfile_info`. -/
def generate_sipfile_info (a : Archiver) (f : SIPFile) : FileInfo :=
  let filename := a.cfg.sipfile_name_formatter f
  let filepath := pathJoin a.data_dir filename
  { checksum := f.checksum
    size := f.size
    filepath := filepath
    fullpath := getFullpath a filepath
    file_uuid := some f.file_id
    filename := some filename
    sipfilepath := f.filepath }

/-- Embedding of `BaseArchiver._generate_sipmetadata_info`.  Note: the
checksum is the digest of `sipmetadata.content.encode('utf-8')`, while the
size is `len(sipmetadata.content)` — the number of characters of the raw
(unencoded) text. -/
def generate_sipmetadata_info (a : Archiver) (m : SIPMetadataEntry) : FileInfo :=
  let filename := a.cfg.sipmetadata_name_formatter m
  let filepath := pathJoin a.metadata_dir filename
  { checksum := "md5:" ++ a.cfg.md5bytes (utf8Encode m.content)
    size := m.content.length
    filepath := filepath
    fullpath := getFullpath a filepath
    metadata_id := some m.type.id }

/-- Embedding of `BaseArchiver._generate_extra_info`. -/
def generate_extra_info (a : Archiver) (content : String) (filename : String) :
    FileInfo :=
  let filepath := pathJoin a.extra_dir filename
  { checksum := "md5:" ++ a.cfg.md5bytes (utf8Encode content)
    size := content.length
    filepath := filepath
    fullpath := getFullpath a filepath
    content := some content }

/-- Embedding of `BaseArchiver._get_data_files`. -/
def get_data_files (a : Archiver) : List FileInfo :=
  a.sip_files.map (generate_sipfile_info a)

/-- Embedding of `BaseArchiver._get_metadata_files`: only the entries whose
type name is listed in `SIPSTORE_ARCHIVER_METADATA_TYPES` are kept. -/
def get_metadata_files (a : Archiver) : List FileInfo :=
  (a.sip_metadata.filter (fun m => a.cfg.metadata_types.contains m.type.name)).map
    (generate_sipmetadata_info a)

/-- Embedding of `BaseArchiver._get_sipfile_filename_mapping`. -/
def get_sipfile_filename_mapping (a : Archiver) (filesinfo : List FileInfo) :
    FileInfo :=
  let content := String.intercalate "\n"
    (filesinfo.map (fun f => (f.filename.getD "") ++ " " ++ f.sipfilepath))
  generate_extra_info a content (a.filenames_mapping_file.getD "")

/-- Python truthiness of `self.filenames_mapping_file` (absent or empty
string is falsy). -/
def mappingFileTruthy (a : Archiver) : Bool :=
  match a.filenames_mapping_file with
  | none => false
  | some s => !(s = "")

/-- Embedding of `BaseArchiver._get_extra_files`:
`if self.filenames_mapping_file and data_files: ...`. -/
def get_extra_files (a : Archiver) (data_files : List FileInfo)
    (_metadata_files : List FileInfo) : List FileInfo :=
  if mappingFileTruthy a ∧ data_files ≠ [] then
    [get_sipfile_filename_mapping a data_files]
  else []

/-- Embedding of `BaseArchiver.get_all_files` (base variant): data files,
then metadata files, then extra files. -/
def get_all_files (a : Archiver) : List FileInfo :=
  let data_files := get_data_files a
  let metadata_files := get_metadata_files a
  let extra_files := get_extra_files a data_files metadata_files
  data_files ++ metadata_files ++ extra_files

/-! ### The package writer (`BaseArchiver.write_all_files`) -/

/-- A progress event sent on the `sipstore_archiver_status` signal after each
written file. -/
structure ProgressEvent where
  total_files : Nat
  total_size : Nat
  copied_files : Nat
  copied_size : Nat
  current_filename : String
  current_filesize : Nat
  deriving DecidableEq

/-- The I/O a single file-information entry triggers, by the dispatch of
`write_all_files`: `'file_uuid' in fi` → `_write_sipfile`, else
`'metadata_id' in fi` → `_write_sipmetadata`, else `_write_extra`. -/
inductive WriteAction where
  | sipfile (fullpath : String) (file_uuid : String)
  | sipmetadata (fullpath : String) (metadata_id : Nat)
  | extra (fullpath : String) (content : String)
  deriving DecidableEq

/-- Dispatch of a single entry to its byte-writer. -/
def writeAction (fi : FileInfo) : WriteAction :=
  match fi.file_uuid with
  | some u => WriteAction.sipfile fi.fullpath u
  | none =>
    match fi.metadata_id with
    | some mid => WriteAction.sipmetadata fi.fullpath mid
    | none => WriteAction.extra fi.fullpath (fi.content.getD "")

/-- `any(k in fi for k in ['file_uuid', 'metadata_id', 'content'])`. -/
def hasMandatoryKey (fi : FileInfo) : Bool :=
  fi.file_uuid.isSome || fi.metadata_id.isSome || fi.content.isSome

/-- The progress-event sequence of the write loop (`enumerate(filesinfo, 1)`
with the running `copied_size`). -/
def writeEvents (total_files total_size : Nat) :
    List FileInfo → Nat → Nat → List ProgressEvent
  | [], _, _ => []
  | fi :: rest, idx, copied =>
    { total_files := total_files
      total_size := total_size
      copied_files := idx + 1
      copied_size := copied + fi.size
      current_filename := fi.filepath
      current_filesize := fi.size } ::
      writeEvents total_files total_size rest (idx + 1) (copied + fi.size)

/-- Outcome of `write_all_files`: the byte-writes performed, the progress
events emitted, and the raised `ValueError`, if any. -/
structure WriteResult where
  actions : List WriteAction
  events : List ProgressEvent
  error : Option String
  deriving DecidableEq

/-- The `if not filesinfo: filesinfo = self.get_all_files()` default of
`write_all_files`: both an omitted (`None`) and an empty (falsy) list
regenerate the full list. -/
def effectiveFilesinfo (a : Archiver) (filesinfo : Option (List FileInfo)) :
    List FileInfo :=
  match filesinfo with
  | none => get_all_files a
  | some l => if l = [] then get_all_files a else l

/-- Embedding of `BaseArchiver.write_all_files`.  The parameter mirrors the
Python default (`filesinfo=None`).  The mandatory-key check runs over the
whole list before the write loop. -/
def write_all_files (a : Archiver) (filesinfo : Option (List FileInfo)) :
    WriteResult :=
  let fis := effectiveFilesinfo a filesinfo
  if ¬ (fis.all hasMandatoryKey) then
    { actions := [], events := [],
      error := some "Missing one of mandatory keys in one or more file-information entries" }
  else
    let total_size := (fis.map (fun fi => fi.size)).sum
    { actions := fis.map writeAction
      events := writeEvents fis.length total_size fis 0 0
      error := none }

/-! ### BagIt tag files
(`invenio_sipstore/archivers/bagit_archiver.py`) -/

/-- Embedding of `BagItArchiver.get_fetch_file`: one line
`"<path> <size> <filename>"` per fetched entry. -/
def get_fetch_file (files_info : List FileInfo) : String × String :=
  ("fetch.txt",
   String.intercalate "\n"
     ((files_info.filter (fun f => isFetched f)).map
       (fun f => f.path ++ " " ++ toString f.size ++ " " ++ (f.filename.getD ""))))

/-- One line of the payload manifest:
`'{0} {1}'.format(self._get_checksum(f['checksum']), f['filename'])`. -/
def manifestLine (f : FileInfo) : Except String String :=
  (getChecksumStr f.checksum).map (fun c => c ++ " " ++ (f.filename.getD ""))

/-- Embedding of `BagItArchiver.get_manifest_file`: one line
`"<checksum-hex> <filename>"` per entry; `_get_checksum` raises on a
malformed checksum string, which the embedding propagates as an error. -/
def get_manifest_file (files_info : List FileInfo) :
    Except String (String × String) :=
  match files_info.mapM manifestLine with
  | Except.error e => Except.error e
  | Except.ok lines =>
    Except.ok ("manifest-md5.txt", String.intercalate "\n" lines)

/-- Embedding of `BagItArchiver.get_bagit_file`: the fixed format
declaration. -/
def get_bagit_file : String × String :=
  ("bagit.txt", "BagIt-Version: 0.97\nTag-File-Character-Encoding: UTF-8")

/-- Embedding of `BagItArchiver.get_baginfo_file`: one line
`"<Tag>: <value>"` per tag (the Python dict preserves insertion order). -/
def get_baginfo_file (tags : List (String × String)) : String × String :=
  ("bag-info.txt",
   String.intercalate "\n" (tags.map (fun kv => kv.1 ++ ": " ++ kv.2)))

/-- Embedding of `BagItArchiver.get_tagmanifest`: the entries with a truthy
filename, rendered in the payload-manifest line format. -/
def get_tagmanifest (files_info : List FileInfo) :
    Except String (String × String) :=
  match get_manifest_file
      (files_info.filter (fun fi => !(fi.filename.getD "" = ""))) with
  | Except.error e => Except.error e
  | Except.ok nc => Except.ok ("tagmanifest-md5.txt", nc.2)

/-- Python dict assignment `tags[k] = v`: update in place if the key exists
(position preserved), else append. -/
def setTag : List (String × String) → String → String → List (String × String)
  | [], k, v => [(k, v)]
  | kv :: rest, k, v =>
    if kv.1 = k then (k, v) :: rest else kv :: setTag rest k v

/-- Embedding of `BagItArchiver.autogenerate_tags`: sets `Bagging-Date` (the
wall-clock timestamp, a parameter of the embedding) and `Payload-Oxum`
(`"<total size>.<file count>"` over the given file infos). -/
def autogenerate_tags (tags : List (String × String)) (bagging_date : String)
    (files_info : List FileInfo) : List (String × String) :=
  let t1 := setTag tags "Bagging-Date" bagging_date
  setTag t1 "Payload-Oxum"
    (toString ((files_info.map (fun f => f.size)).sum) ++ "." ++
     toString files_info.length)

/-- Modelled from the spec: `BaseArchiver._save_file(filename, content,
dry_run=True)` is called by `BagItArchiver.create_bagit_metadata` but is not
present under `src/` (only this caller is).  Per §4.5/§6 of the spec it plans
a raw tag-file write: it returns the file information (archived filename,
absolute locator, size and checksum of the text content) and, being a dry
run, performs no I/O. -/
def save_file_dry (a : Archiver) (filename : String) (content : String) :
    FileInfo :=
  { checksum := "md5:" ++ a.cfg.md5bytes (utf8Encode content)
    size := content.length
    filepath := filename
    path := getFullpath a filename
    fullpath := getFullpath a filename
    filename := some filename }

/-- One iteration of the `for func, args in funcs` loop:
`fi = self._save_file(fn, content, dry_run=True); fi['content'] = content`. -/
def mkTagFileInfo (a : Archiver) (nc : String × String) : FileInfo :=
  let fi := save_file_dry a nc.1 nc.2
  { fi with content := some nc.2 }

/-- Embedding of the tag-file generation loop of
`BagItArchiver.create_bagit_metadata` (lines 156-173): the `funcs` list is
`get_fetch_file` (only when some entry is fetched), then `get_manifest_file`,
`get_bagit_file`, `get_baginfo_file`, and `get_tagmanifest` last — the latter
applied to `bagit_meta_files`, i.e. to the already-generated tag-file infos
accumulated by the loop. -/
def generate_bagit_files (a : Archiver) (sip_data_files : List FileInfo)
    (tags : List (String × String)) : Except String (List FileInfo) :=
  let fetchPart : List (String × String) :=
    if sip_data_files.any (fun fi => isFetched fi) then
      [get_fetch_file sip_data_files]
    else []
  match get_manifest_file sip_data_files with
  | Except.error e => Except.error e
  | Except.ok manifest =>
    let pre := fetchPart ++ [manifest, get_bagit_file, get_baginfo_file tags]
    let bagit_meta_files := pre.map (mkTagFileInfo a)
    match get_tagmanifest bagit_meta_files with
    | Except.error e => Except.error e
    | Except.ok tagm => Except.ok (bagit_meta_files ++ [mkTagFileInfo a tagm])

/-- The filenames of an Except-wrapped tag-file info list. -/
def bagitFileNames (r : Except String (List FileInfo)) :
    Except String (List String) :=
  match r with
  | Except.ok l => Except.ok (l.map (fun fi => fi.filename.getD ""))
  | Except.error e => Except.error e

/-! ### The BagIt metadata record and `BagItArchiver.create` -/

/-- The persisted BagIt metadata record (the JSON content of the
`'bagit'`-typed `SIPMetadata`): data files and tag files. -/
structure BagitMeta where
  datafiles : List FileInfo
  bagitfiles : List FileInfo
  deriving DecidableEq

/-- Modelled from the spec: `BaseArchiver.create(filesdir, metadatadir,
sipfiles, dry_run=True)` is called by `BagItArchiver.create_bagit_metadata`
but is not present under `src/`.  Per §4.3 of the spec it is the pure
planning step: it produces the file information for the given `SIPFile`s and
for the archivable metadata entries, without I/O. -/
def base_create_dry (a : Archiver) (sipfiles : List SIPFile) : List FileInfo :=
  sipfiles.map (generate_sipfile_info a) ++ get_metadata_files a

/-- Embedding of `BagItArchiver.create_bagit_metadata`: resolve the patch
delta against the base manifest (when `patch_of` is given), plan the stored
files, generate the tag files, and return the metadata record to be
persisted.  `bagging_date` is the wall-clock timestamp used by
`autogenerate_tags`. -/
def create_bagit_metadata (a : Archiver) (bagging_date : String)
    (patch_of : Option BagitMeta) (include_missing_files : Bool) :
    Except String BagitMeta :=
  let fetched_part := match patch_of with
    | none => []
    | some pm =>
      fetched_entries pm.datafiles a.sip_files "data/files"
        include_missing_files
  let sipfiles := match patch_of with
    | none => a.sip_files
    | some pm => stored_sipfiles pm.datafiles a.sip_files
  let files_info := base_create_dry a sipfiles
  let sip_data_files := fetched_part ++ files_info
  let tags := autogenerate_tags a.tags bagging_date files_info
  match generate_bagit_files a sip_data_files tags with
  | Except.error e => Except.error e
  | Except.ok bagit_files =>
    Except.ok { datafiles := sip_data_files, bagitfiles := bagit_files }

/-- The state acted on by `BagItArchiver.create`: the `'bagit'`-typed
`SIPMetadata` record of this SIP (the database side) and the archive storage
(a map from full path to written byte content). -/
structure ArchState where
  db : Option BagitMeta
  disk : String → Option String

/-- A single storage write: the file at `p.1` now holds `p.2`. -/
def diskWrite (d : String → Option String) (p : String × String) :
    String → Option String :=
  fun q => if q = p.1 then some p.2 else d q

/-- Sequential storage writes. -/
def diskWrites (d : String → Option String) (ps : List (String × String)) :
    String → Option String :=
  ps.foldl diskWrite d

/-- The value left at path `q` by a sequence of writes (the last write to
`q` wins), or `none` when the sequence never writes `q`. -/
def lastWrite : List (String × String) → String → Option String
  | [], _ => none
  | p :: ps, q =>
    match lastWrite ps q with
    | some v => some v
    | none => if p.1 = q then some p.2 else none

/-- Modelled from the spec: the byte-writer dispatch of the Package Writer
(§4.5) used by the non-dry `BaseArchiver.create`, absent from `src/`.  A
data-file entry copies its `FileInstance` bytes, a metadata entry writes its
text content, an extra entry its inline content — each to the entry's full
path. -/
def writePair (a : Archiver) (fi : FileInfo) : String × String :=
  match fi.file_uuid with
  | some u => (fi.fullpath, a.cfg.instance_bytes u)
  | none =>
    match fi.metadata_id with
    | some mid =>
      (fi.fullpath,
       (((a.sip_metadata.filter (fun m => m.type.id = mid)).getLast?).map
          (fun m => m.content)).getD "")
    | none => (fi.fullpath, fi.content.getD "")

/-- The `SIPFile`s selected for writing by `BagItArchiver.create`: those
whose identifier appears among the recorded non-fetched data-file entries
(`archived_data` / `archived_s` / `sipfiles` of lines 255-262). -/
def archived_sipfiles (a : Archiver) (meta : BagitMeta) : List SIPFile :=
  a.sip_files.filter (fun f =>
    (((meta.datafiles.filter
        (fun fi => !(isFetched fi) && fi.file_uuid.isSome)).filterMap
          (fun fi => fi.file_uuid)).contains f.file_id))

/-- The storage writes performed by the non-dry `super().create` call of
`BagItArchiver.create`: one byte-write per planned file info. -/
def dataWritePairs (a : Archiver) (meta : BagitMeta) :
    List (String × String) :=
  (base_create_dry a (archived_sipfiles a meta)).map (writePair a)

/-- The storage writes of the `for fi in bagit_meta['bagitfiles']:
self._save_file(fi['filename'], fi['content'])` loop. -/
def bagitWritePairs (a : Archiver) (meta : BagitMeta) :
    List (String × String) :=
  meta.bagitfiles.map
    (fun fi => (getFullpath a (fi.filename.getD ""), fi.content.getD ""))

/-- The `files_info` list returned by `BagItArchiver.create`: planned
writes, then the fetched entries, then the tag files. -/
def create_output (a : Archiver) (meta : BagitMeta) : List FileInfo :=
  base_create_dry a (archived_sipfiles a meta)
    ++ meta.datafiles.filter (fun fi => isFetched fi)
    ++ meta.bagitfiles

/-- The write phase of `BagItArchiver.create`, once the metadata record
`meta` is at hand: perform the data-file writes then the tag-file writes,
and return the new state plus the returned file information. -/
def bagit_write_phase (a : Archiver) (db : Option BagitMeta)
    (disk : String → Option String) (meta : BagitMeta) :
    ArchState × List FileInfo :=
  ({ db := db
     disk := diskWrites (diskWrites disk (dataWritePairs a meta))
               (bagitWritePairs a meta) },
   create_output a meta)

/-- Embedding of `BagItArchiver.create` (lines 248-273): reuse the existing
`'bagit'` metadata record when present, otherwise compute and persist it;
then write the non-fetched data files (plus the archivable metadata) and the
recorded tag files, and return the file information of everything written
plus the fetched entries. -/
def bagit_create (a : Archiver) (bagging_date : String)
    (patch_of : Option BagitMeta) (include_missing_files : Bool)
    (st : ArchState) : Except String (ArchState × List FileInfo) :=
  match st.db with
  | some m => Except.ok (bagit_write_phase a (some m) st.disk m)
  | none =>
    match create_bagit_metadata a bagging_date patch_of
        include_missing_files with
    | Except.error e => Except.error e
    | Except.ok m => Except.ok (bagit_write_phase a (some m) st.disk m)

/-! ### Concrete instances used by counterexamples and witnesses -/

/-- A stand-in digest function (the claims never depend on the digest's
value, only on what is digested); it produces colon-free hex-like output. -/
def md5Dummy (bs : List Nat) : String := "d" ++ toString bs.length

/-- Base-manifest data-file entries holding contents `f1` and `f2`
(scenario of the delta-correctness example in the spec). -/
def exPrevC1 : List FileInfo :=
  [{ checksum := "md5:aa", size := 1, file_uuid := some "f1",
     filename := some "data/files/a.txt", path := "/archive/base/data/files/a.txt" },
   { checksum := "md5:bb", size := 2, file_uuid := some "f2",
     filename := some "data/files/b.txt", path := "/archive/base/data/files/b.txt" }]

/-- Current submission files holding contents `f2` and `f3`. -/
def exSipC1 : List SIPFile :=
  [{ filepath := "b.txt", file_id := "f2", checksum := "md5:bb", size := 2 },
   { filepath := "c.txt", file_id := "f3", checksum := "md5:cc", size := 3 }]

/-- A configuration with the stand-in digest and one archivable metadata
type. -/
def exCfg : ArchiverCfg :=
  { md5bytes := md5Dummy
    metadata_types := ["json"]
    archive_base_uri := "/archive"
    archive_subpath := "ab/cd/ef" }

/-- An archiver over a one-file, one-metadata-entry SIP. -/
def exArch : Archiver :=
  { cfg := exCfg
    sip_files := [{ filepath := "x.txt", file_id := "u1",
                    checksum := "md5:aa", size := 4 }]
    sip_metadata := [{ type := { id := 7, name := "json", format := "json" },
                       content := "json-data" }]
    tags := [("Source", "test")] }

/-- A metadata entry whose content is the single non-ASCII character `é`. -/
def exMetaNonAscii : SIPMetadataEntry :=
  { type := { id := 3, name := "json", format := "json" }, content := "é" }

/-- A metadata entry with pure-ASCII content. -/
def exMetaAscii : SIPMetadataEntry :=
  { type := { id := 4, name := "json", format := "json" },
    content := "plain ascii" }

/-- A file-information entry carrying none of the three discriminating
fields. -/
def exBadFileInfo : FileInfo :=
  { checksum := "md5:aa", size := 5, filepath := "bad.txt" }

/-- An archive state whose `'bagit'` record already exists. -/
def exMetaRec : BagitMeta :=
  { datafiles :=
      [{ checksum := "md5:aa", size := 4, filepath := "data/files/x.txt",
         fullpath := "/archive/ab/cd/ef/data/files/x.txt",
         file_uuid := some "u1", filename := some "data/files/x.txt" }]
    bagitfiles :=
      [{ checksum := "md5:d9", size := 9, filepath := "manifest-md5.txt",
         path := "/archive/ab/cd/ef/manifest-md5.txt",
         fullpath := "/archive/ab/cd/ef/manifest-md5.txt",
         filename := some "manifest-md5.txt", content := some "aa data/files/x.txt" }] }

/-- An initial archive state: record present, empty storage. -/
def exSt0 : ArchState := { db := some exMetaRec, disk := fun _ => none }

/-- The result of the first `bagit_create` call on `exSt0`. -/
def exFirst : ArchState × List FileInfo :=
  match bagit_create exArch "2017-01-01" none false exSt0 with
  | Except.ok r => r
  | Except.error _ => (exSt0, [])

/-- The planned data/metadata file infos of `exArch` (no fetched entries). -/
def exDataFilesC4 : List FileInfo := base_create_dry exArch exArch.sip_files

/-- The auto-generated tags of `exArch` at a fixed timestamp. -/
def exTagsC4 : List (String × String) :=
  autogenerate_tags exArch.tags "2017-01-01" exDataFilesC4

/-- The tag files generated for `exArch` on `exDataFilesC4`. -/
def exBagitOut : List FileInfo :=
  match generate_bagit_files exArch exDataFilesC4 exTagsC4 with
  | Except.ok l => l
  | Except.error _ => []

deriving instance DecidableEq for Except

/-! ## Helper lemmas -/

theorem chunksGo_flatten (s : List Char) :
    ∀ (ns : List Nat) (acc : Nat), s.length ≤ acc + ns.sum →
      (chunksGo s ns acc).flatten = s.drop acc := by
  intro ns
  induction ns with
  | nil =>
    intro acc h
    simp only [List.sum_nil, Nat.add_zero] at h
    simp [chunksGo, List.drop_eq_nil_of_le h]
  | cons i rest ih =>
    intro acc h
    by_cases hac : acc < s.length
    · have h' : s.length ≤ (acc + i) + rest.sum := by
        simpa [Nat.add_assoc] using h
      simp only [chunksGo, if_pos hac, List.flatten_cons, ih (acc + i) h']
      have hd : List.drop (acc + i) s = List.drop i (List.drop acc s) := by
        rw [List.drop_drop, Nat.add_comm]
      rw [hd]
      exact List.take_append_drop i (s.drop acc)
    · have hle : s.length ≤ acc := Nat.le_of_not_lt hac
      have h' : s.length ≤ acc + rest.sum := Nat.le_trans hle (Nat.le_add_right _ _)
      simp only [chunksGo, if_neg hac, ih acc h']

theorem chunksL_flatten (s : List Char) (n : List Nat) :
    (chunksL s n).flatten = s := by
  unfold chunksL
  by_cases hs : n.sum < s.length
  · rw [if_pos hs]
    have h : s.length ≤ 0 + (n ++ [s.length]).sum := by
      simp [List.sum_append]
    simpa using chunksGo_flatten s (n ++ [s.length]) 0 h
  · rw [if_neg hs]
    have h : s.length ≤ 0 + n.sum := by
      simpa using Nat.le_of_not_lt hs
    simpa using chunksGo_flatten s n 0 h

theorem pySplit_ne_nil (sep : Char) (l : List Char) : pySplit sep l ≠ [] := by
  cases l with
  | nil => simp [pySplit]
  | cons c cs =>
    simp only [pySplit]
    cases pySplit sep cs with
    | nil => simp
    | cons g gs =>
      by_cases h : c = sep <;> simp [h]

theorem pySplit_of_not_mem (sep : Char) (l : List Char) (h : sep ∉ l) :
    pySplit sep l = [l] := by
  induction l with
  | nil => rfl
  | cons c cs ih =>
    have hc : c ≠ sep := fun hcs => h (hcs ▸ List.mem_cons_self c cs)
    have hcs : sep ∉ cs := fun hm => h (List.mem_cons_of_mem c hm)
    simp only [pySplit, ih hcs, if_neg hc]

theorem writeEvents_length (tf ts : Nat) :
    ∀ (l : List FileInfo) (idx copied : Nat),
      (writeEvents tf ts l idx copied).length = l.length := by
  intro l
  induction l with
  | nil => intro idx copied; rfl
  | cons fi rest ih =>
    intro idx copied
    simp [writeEvents, ih]

theorem get_all_files_all_mandatory (a : Archiver) :
    (get_all_files a).all hasMandatoryKey = true := by
  rw [List.all_eq_true]
  intro fi hfi
  unfold get_all_files at hfi
  rcases List.mem_append.mp hfi with hl | hx
  · rcases List.mem_append.mp hl with hd | hm
    · obtain ⟨f, _, rfl⟩ := List.mem_map.mp hd
      simp [generate_sipfile_info, hasMandatoryKey]
    · obtain ⟨m, _, rfl⟩ := List.mem_map.mp hm
      simp [generate_sipmetadata_info, hasMandatoryKey]
  · unfold get_extra_files at hx
    by_cases hc : mappingFileTruthy a ∧ get_data_files a ≠ []
    · rw [if_pos hc] at hx
      rcases List.mem_singleton.mp hx with rfl
      simp [get_sipfile_filename_mapping, generate_extra_info, hasMandatoryKey]
    · rw [if_neg hc] at hx
      cases hx

theorem utf8EncodeChar_length_of_ascii (c : Char) (h : c.toNat < 128) :
    (utf8EncodeChar c).length = 1 := by
  unfold utf8EncodeChar
  rw [if_pos h]
  rfl

theorem utf8_flatten_length_of_ascii :
    ∀ l : List Char, (∀ c ∈ l, c.toNat < 128) →
      ((l.map utf8EncodeChar).flatten).length = l.length := by
  intro l
  induction l with
  | nil => intro _; rfl
  | cons c cs ih =>
    intro h
    have hc := h c (List.mem_cons_self c cs)
    have hcs : ∀ x ∈ cs, x.toNat < 128 :=
      fun x hx => h x (List.mem_cons_of_mem c hx)
    simp [utf8EncodeChar_length_of_ascii c hc, ih hcs]
    omega

theorem utf8Encode_length_of_ascii (s : String)
    (h : ∀ c ∈ s.data, c.toNat < 128) :
    (utf8Encode s).length = s.length := by
  unfold utf8Encode
  rw [show s.length = s.data.length from rfl]
  exact utf8_flatten_length_of_ascii s.data h

theorem get_manifest_file_ok_fst (l : List FileInfo) (p : String × String)
    (h : get_manifest_file l = Except.ok p) : p.1 = "manifest-md5.txt" := by
  unfold get_manifest_file at h
  cases hm : l.mapM manifestLine with
  | error e =>
    simp only [hm] at h
    exact Except.noConfusion h
  | ok lines =>
    simp only [hm] at h
    cases h
    rfl

theorem get_tagmanifest_ok_shape (l : List FileInfo) (p : String × String)
    (h : get_tagmanifest l = Except.ok p) :
    p = ("tagmanifest-md5.txt", p.2) := by
  unfold get_tagmanifest at h
  cases hm : get_manifest_file
      (l.filter (fun fi => !(fi.filename.getD "" = ""))) with
  | error e =>
    simp only [hm] at h
    exact Except.noConfusion h
  | ok nc =>
    simp only [hm] at h
    cases h
    rfl

theorem diskWrites_eq_lastWrite :
    ∀ (ps : List (String × String)) (d : String → Option String) (q : String),
      diskWrites d ps q = (lastWrite ps q).elim (d q) some := by
  intro ps
  induction ps with
  | nil => intro d q; rfl
  | cons p ps ih =>
    intro d q
    show diskWrites (diskWrite d p) ps q = _
    rw [ih (diskWrite d p) q]
    cases h : lastWrite ps q with
    | some v => simp [lastWrite, h]
    | none =>
      simp only [lastWrite, h, Option.elim]
      by_cases hpq : p.1 = q
      · rw [if_pos hpq]
        show (if q = p.1 then some p.2 else d q) = some p.2
        rw [if_pos hpq.symm]
      · rw [if_neg hpq]
        show (if q = p.1 then some p.2 else d q) = d q
        rw [if_neg (fun hc => hpq hc.symm)]

theorem diskWrites_pair_idem (d : String → Option String)
    (A B : List (String × String)) :
    diskWrites (diskWrites (diskWrites (diskWrites d A) B) A) B
      = diskWrites (diskWrites d A) B := by
  funext q
  simp only [diskWrites_eq_lastWrite]
  cases lastWrite B q <;> cases lastWrite A q <;> rfl

theorem filter_ne_nil_iff {α : Type} (p : α → Bool) (l : List α) :
    l.filter p ≠ [] ↔ ∃ x ∈ l, p x = true := by
  rw [ne_eq, List.filter_eq_nil_iff]
  push_neg
  simp

theorem id2mi_of_mem (prev : List FileInfo) (u : String)
    (h : ∃ f ∈ prev, f.file_uuid = some u) :
    ∃ f, id2mi prev u = some f ∧ f.file_uuid = some u := by
  have hne : prev.filter (fun f => f.file_uuid = some u) ≠ [] := by
    rw [filter_ne_nil_iff]
    obtain ⟨f, hf, hu⟩ := h
    exact ⟨f, hf, by simp [hu]⟩
  obtain ⟨f, hf⟩ := Option.isSome_iff_exists.mp (List.getLast?_isSome.mpr hne)
  refine ⟨f, hf, ?_⟩
  have hmem := List.mem_of_mem_getLast? hf
  simpa using (List.mem_filter.mp hmem).2

theorem id2sf_isSome_iff (sf : List SIPFile) (u : String) :
    (id2sf sf u).isSome = true ↔ ∃ g ∈ sf, g.file_id = u := by
  unfold id2sf
  rw [List.getLast?_isSome, filter_ne_nil_iff]
  simp

theorem mem_manifest_files_s (prev : List FileInfo) (u : String) :
    u ∈ manifest_files_s prev ↔ ∃ f ∈ prev, f.file_uuid = some u := by
  simp [manifest_files_s, List.mem_toFinset, List.mem_filterMap]

theorem mem_sip_files_s (sf : List SIPFile) (u : String) :
    u ∈ sip_files_s sf ↔ ∃ g ∈ sf, g.file_id = u := by
  simp [sip_files_s, List.mem_toFinset, List.mem_map]

theorem mem_fetched_uuid_list_mem_prev (prev : List FileInfo)
    (sf : List SIPFile) (imf : Bool) (u : String)
    (h : u ∈ fetched_uuid_list prev sf imf) :
    ∃ f ∈ prev, f.file_uuid = some u := by
  unfold fetched_uuid_list at h
  cases imf with
  | true => simpa [List.mem_dedup, List.mem_filterMap] using h
  | false =>
    simp only [Bool.false_eq_true, if_false, List.mem_filter] at h
    simpa [List.mem_dedup, List.mem_filterMap] using h.1

/-! ## Claim theorems -/

/-- C10: round-trip of the default archive-directory builder — for every
string `s` and every list `n` of non-negative chunk sizes, concatenating the
chunks produced by `chunks(s, n)` yields `s` exactly; in particular the
segments produced by `default_archive_directory_builder` concatenate to
exactly the SIP's UUID string (three segments for a standard 36-character
UUID), with no characters lost or duplicated. -/
theorem chunks_roundtrip_spec :
    (∀ (s : List Char) (n : List Nat), (chunksL s n).flatten = s)
    ∧ (∀ sipId : List Char,
        (default_archive_directory_builder sipId).flatten = sipId)
    ∧ (default_archive_directory_builder
        "abcdefgh-1234-1234-1234-1234567890ab".toList).length = 3 := by
  refine ⟨chunksL_flatten, fun sipId => chunksL_flatten sipId [2, 2], ?_⟩
  decide

/-- C6: digest-string parsing — `get_checksum` returns exactly the hex part
of a well-formed `"md5:<hex>"` input for expected algorithm `md5`, and fails
with a format error whenever the colon-separated prefix differs from the
expected algorithm, or when the input has no colon-separated prefix at all
(e.g. `"md5"`). -/
theorem get_checksum_parse_spec :
    get_checksum "md5:5d41402abc4b2a76b9719d911017c592".toList "md5".toList
      = Except.ok "5d41402abc4b2a76b9719d911017c592".toList
    ∧ (∃ e, get_checksum "sha1:abc".toList "md5".toList = Except.error e)
    ∧ (∃ e, get_checksum "md5".toList "md5".toList = Except.error e)
    ∧ (∀ (value expected p : List Char),
        (pySplit ':' value).headI = p → p ≠ expected →
        ∃ e, get_checksum value expected = Except.error e)
    ∧ (∀ (value expected : List Char), ':' ∉ value →
        ∃ e, get_checksum value expected = Except.error e) := by
  refine ⟨by decide,
    ⟨"Checksum format is not correct.", by decide⟩,
    ⟨"Checksum format is not correct.", by decide⟩, ?_, ?_⟩
  · intro value expected p hp hne
    refine ⟨"Checksum format is not correct.", ?_⟩
    unfold get_checksum
    rw [if_pos (Or.inl (hp ▸ hne))]
  · intro value expected hnc
    refine ⟨"Checksum format is not correct.", ?_⟩
    unfold get_checksum
    rw [if_pos (Or.inr (by rw [pySplit_of_not_mem ':' value hnc]; simp))]

/-- C6 witness: the prefix-mismatch and no-prefix branches of
`get_checksum_parse_spec` instantiated at concrete inputs. -/
theorem get_checksum_parse_spec_witness :
    (∃ e, get_checksum "sha9:zz".toList "md5".toList = Except.error e)
    ∧ (∃ e, get_checksum "nocolon".toList "md5".toList = Except.error e) :=
  ⟨get_checksum_parse_spec.2.2.2.1 "sha9:zz".toList "md5".toList
      "sha9".toList (by decide) (by decide),
   get_checksum_parse_spec.2.2.2.2 "nocolon".toList "md5".toList (by decide)⟩

/-- C1: the patch/delta resolution of `create_bagit_metadata` partitions
content identifiers as claimed — with `include_missing_files` true the
fetched set is the whole set of identifiers recorded in the base manifest's
data-file entries; with it false it is the intersection of that base set
with the current submission's identifier set; the stored set is always the
current set minus the base set; identifiers in the base but not in the
current set are (flag false) neither fetched nor stored.  For base files
`{f1, f2}` and current files `{f2, f3}`: flag false gives `toFetch = {f2}`,
flag true gives `toFetch = {f1, f2}`, and `toStore = {f3}` in both cases. -/
theorem patch_partition_spec :
    (∀ (prev : List FileInfo) (sf : List SIPFile) (u : String),
       (u ∈ fetched_uuids prev sf true ↔ ∃ f ∈ prev, f.file_uuid = some u)
       ∧ (u ∈ fetched_uuids prev sf false ↔
            (∃ f ∈ prev, f.file_uuid = some u) ∧ (∃ g ∈ sf, g.file_id = u))
       ∧ (u ∈ stored_uuids prev sf ↔
            (∃ g ∈ sf, g.file_id = u) ∧ ¬ (∃ f ∈ prev, f.file_uuid = some u))
       ∧ ((∃ f ∈ prev, f.file_uuid = some u) → (¬ ∃ g ∈ sf, g.file_id = u) →
            u ∉ fetched_uuids prev sf false ∧ u ∉ stored_uuids prev sf))
    ∧ fetched_uuids exPrevC1 exSipC1 false = {"f2"}
    ∧ fetched_uuids exPrevC1 exSipC1 true = {"f1", "f2"}
    ∧ stored_uuids exPrevC1 exSipC1 = {"f3"} := by
  refine ⟨?_, by decide, by decide, by decide⟩
  intro prev sf u
  have hm := mem_manifest_files_s prev u
  have hs := mem_sip_files_s sf u
  refine ⟨?_, ?_, ?_, ?_⟩
  · simpa [fetched_uuids] using hm
  · rw [show fetched_uuids prev sf false
        = manifest_files_s prev ∩ sip_files_s sf from rfl, Finset.mem_inter,
      hm, hs]
  · rw [show stored_uuids prev sf
        = sip_files_s sf \ manifest_files_s prev from rfl, Finset.mem_sdiff,
      hm, hs]
  · intro _ hg
    constructor
    · intro hmem
      exact hg (hs.mp (Finset.mem_inter.mp hmem).2)
    · intro hmem
      exact hg (hs.mp (Finset.mem_sdiff.mp hmem).1)

/-- C1 witness: the neither-fetched-nor-stored clause instantiated at the
concrete base/current file sets, content `f1`. -/
theorem patch_partition_spec_witness :
    "f1" ∉ fetched_uuids exPrevC1 exSipC1 false
    ∧ "f1" ∉ stored_uuids exPrevC1 exSipC1 :=
  (patch_partition_spec.1 exPrevC1 exSipC1 "f1").2.2.2 (by decide) (by decide)

/-- C8: patch delta computation is pure and deterministic — the fetched and
stored identifier sets depend only on the set of identifiers recorded in
the base manifest's data-file entries and the set of identifiers of the
current submission's files, so any two runs over representations of the same
two sets produce the same partition. -/
theorem patch_delta_deterministic :
    ∀ (prev1 prev2 : List FileInfo) (sf1 sf2 : List SIPFile) (imf : Bool),
      manifest_files_s prev1 = manifest_files_s prev2 →
      sip_files_s sf1 = sip_files_s sf2 →
      fetched_uuids prev1 sf1 imf = fetched_uuids prev2 sf2 imf
      ∧ stored_uuids prev1 sf1 = stored_uuids prev2 sf2 := by
  intro prev1 prev2 sf1 sf2 imf h1 h2
  constructor
  · unfold fetched_uuids
    rw [h1, h2]
  · unfold stored_uuids
    rw [h1, h2]

/-- C8 witness: the determinism theorem applied to two differently-ordered
representations of the same base and current file sets. -/
theorem patch_delta_deterministic_witness :
    fetched_uuids exPrevC1 exSipC1 false
      = fetched_uuids exPrevC1.reverse exSipC1.reverse false
    ∧ stored_uuids exPrevC1 exSipC1
      = stored_uuids exPrevC1.reverse exSipC1.reverse :=
  patch_delta_deterministic exPrevC1 exPrevC1.reverse exSipC1 exSipC1.reverse
    false (by decide) (by decide)

/-- C3: for every content identifier in the fetched set, the entry appended
to `sip_data_files` is marked fetched and carries that identifier, and its
recorded filename is taken from the current submission's file for that
identifier (the current `SIPFile`'s `filepath` joined under `filesdir`)
whenever the current submission attaches that content; only when it does not
(`id2sf` lookup empty, equivalently no current file has that identifier)
does the filename fall back to the one recorded in the base manifest's
entry. -/
theorem fetched_filename_spec :
    ∀ (prev : List FileInfo) (sf : List SIPFile) (filesdir : String)
      (imf : Bool) (u : String), u ∈ fetched_uuid_list prev sf imf →
      fetched_entry prev sf filesdir u ∈ fetched_entries prev sf filesdir imf
      ∧ (fetched_entry prev sf filesdir u).file_uuid = some u
      ∧ (fetched_entry prev sf filesdir u).fetched = some true
      ∧ (∀ s, id2sf sf u = some s →
          (fetched_entry prev sf filesdir u).filename
            = some (pathJoin filesdir s.filepath))
      ∧ (id2sf sf u = none →
          (fetched_entry prev sf filesdir u).filename
            = ((id2mi prev u).getD default).filename)
      ∧ ((id2sf sf u).isSome = true ↔ ∃ g ∈ sf, g.file_id = u) := by
  intro prev sf filesdir imf u hu
  obtain ⟨f, hf, hfu⟩ :=
    id2mi_of_mem prev u (mem_fetched_uuid_list_mem_prev prev sf imf u hu)
  refine ⟨List.mem_map.mpr ⟨u, hu, rfl⟩, ?_, ?_, ?_, ?_,
    id2sf_isSome_iff sf u⟩
  · simp [fetched_entry, hf, hfu]
  · simp [fetched_entry]
  · intro s hs
    simp [fetched_entry, hs]
  · intro hn
    simp [fetched_entry, hn]

/-- C3 witness: content `f2` is re-attached by the current submission under
the renamed logical path `b.txt`, and the fetched entry's filename follows
the current submission. -/
theorem fetched_filename_spec_witness :
    (fetched_entry exPrevC1 exSipC1 "data/files" "f2").filename
      = some "data/files/b.txt"
    ∧ (fetched_entry exPrevC1 exSipC1 "data/files" "f2").fetched
      = some true := by
  have h := fetched_filename_spec exPrevC1 exSipC1 "data/files" false "f2"
    (by decide)
  refine ⟨?_, h.2.2.1⟩
  have h4 := h.2.2.2.1
    { filepath := "b.txt", file_id := "f2", checksum := "md5:bb", size := 2 }
    (by decide)
  exact h4.trans (by decide)

/-- C5: if some entry of the file-information list passed to
`write_all_files` carries none of the three discriminating fields
(`file_uuid`, `metadata_id`, `content`), the call fails with a validation
error, and no byte-write is performed and no progress event is emitted —
the mandatory-key check over all entries precedes the write loop. -/
theorem write_all_files_validation :
    ∀ (a : Archiver) (l : List FileInfo) (fi : FileInfo), fi ∈ l →
      fi.file_uuid = none → fi.metadata_id = none → fi.content = none →
      (write_all_files a (some l)).error.isSome = true
      ∧ (write_all_files a (some l)).actions = []
      ∧ (write_all_files a (some l)).events = [] := by
  intro a l fi hmem h1 h2 h3
  have hnil : l ≠ [] := List.ne_nil_of_mem hmem
  have hbad : hasMandatoryKey fi = false := by
    simp [hasMandatoryKey, h1, h2, h3]
  have hall : ¬ (l.all hasMandatoryKey = true) := by
    intro hc
    have := List.all_eq_true.mp hc fi hmem
    rw [hbad] at this
    cases this
  have hfis : effectiveFilesinfo a (some l) = l := by
    show (if l = [] then get_all_files a else l) = l
    rw [if_neg hnil]
  have hres : write_all_files a (some l)
      = { actions := [], events := [],
          error := some "Missing one of mandatory keys in one or more file-information entries" } := by
    simp only [write_all_files, hfis]
    rw [if_pos hall]
  rw [hres]
  exact ⟨rfl, rfl, rfl⟩

/-- C5 witness: a concrete list containing an entry with none of the three
fields yields the validation error with no writes and no events. -/
theorem write_all_files_validation_witness :
    (write_all_files exArch (some [exBadFileInfo])).error.isSome = true
    ∧ (write_all_files exArch (some [exBadFileInfo])).actions = []
    ∧ (write_all_files exArch (some [exBadFileInfo])).events = [] :=
  write_all_files_validation exArch [exBadFileInfo] exBadFileInfo
    (by decide) (by decide) (by decide) (by decide)

/-- C9: `write_all_files` with an empty (falsy) list behaves exactly like an
omitted argument — the archiver regenerates the full file list via
`get_all_files` (whose entries all carry a discriminating field, so the
validation check passes) and dispatches a write and a progress event for
every file in it. -/
theorem write_all_files_empty_regenerates :
    ∀ a : Archiver,
      write_all_files a (some []) = write_all_files a none
      ∧ (get_all_files a).all hasMandatoryKey = true
      ∧ (write_all_files a (some [])).actions
          = (get_all_files a).map writeAction
      ∧ (write_all_files a (some [])).error = none
      ∧ (write_all_files a (some [])).events.length
          = (get_all_files a).length := by
  intro a
  have hfis : effectiveFilesinfo a (some []) = effectiveFilesinfo a none := by
    show (if ([] : List FileInfo) = [] then get_all_files a else [])
        = get_all_files a
    rw [if_pos rfl]
  have hsame : write_all_files a (some []) = write_all_files a none := by
    simp only [write_all_files, hfis]
  have hall := get_all_files_all_mandatory a
  have hnotnot : ¬ ¬ ((get_all_files a).all hasMandatoryKey = true) :=
    fun hc => hc hall
  have hnone : effectiveFilesinfo a none = get_all_files a := rfl
  refine ⟨hsame, hall, ?_, ?_, ?_⟩
  · rw [hsame]
    simp only [write_all_files, hnone, if_neg hnotnot]
  · rw [hsame]
    simp only [write_all_files, hnone, if_neg hnotnot]
  · rw [hsame]
    simp only [write_all_files, hnone, if_neg hnotnot]
    exact writeEvents_length _ _ (get_all_files a) 0 0

/-- C7 counterexample: for a metadata entry whose content is the single
character `é` (one character, two UTF-8 bytes) the recorded size is 1, the
length of the UTF-8 encoding is 2 — the recorded size is *not* the length
of the UTF-8 byte encoding, refuting the size clause of the claim. -/
theorem metadata_size_utf8_counterexample :
    (generate_sipmetadata_info exArch exMetaNonAscii).size = 1
    ∧ (utf8Encode exMetaNonAscii.content).length = 2
    ∧ ¬ ((generate_sipmetadata_info exArch exMetaNonAscii).size
          = (utf8Encode exMetaNonAscii.content).length) := by
  decide

/-- C7 (amended): the manifest builder includes exactly the metadata entries
whose type name is in the configured allow-list; for each such entry the
checksum is the MD5 digest of the UTF-8 byte encoding of the content, while
the recorded size is the *character count* of the raw content — which
coincides with the UTF-8 byte length only for pure-ASCII content. -/
theorem metadata_info_spec :
    ∀ (a : Archiver),
      (∀ fi, fi ∈ get_metadata_files a ↔
        ∃ m ∈ a.sip_metadata,
          a.cfg.metadata_types.contains m.type.name = true
          ∧ fi = generate_sipmetadata_info a m)
      ∧ ∀ m : SIPMetadataEntry,
          (generate_sipmetadata_info a m).checksum
            = "md5:" ++ a.cfg.md5bytes (utf8Encode m.content)
          ∧ (generate_sipmetadata_info a m).size = m.content.length
          ∧ ((∀ c ∈ m.content.data, c.toNat < 128) →
              (generate_sipmetadata_info a m).size
                = (utf8Encode m.content).length) := by
  intro a
  constructor
  · intro fi
    unfold get_metadata_files
    rw [List.mem_map]
    constructor
    · rintro ⟨m, hm, rfl⟩
      have := List.mem_filter.mp hm
      exact ⟨m, this.1, this.2, rfl⟩
    · rintro ⟨m, hm, hc, rfl⟩
      exact ⟨m, List.mem_filter.mpr ⟨hm, hc⟩, rfl⟩
  · intro m
    refine ⟨rfl, rfl, ?_⟩
    intro hascii
    exact (utf8Encode_length_of_ascii m.content hascii).symm

/-- C7 witness: the amended size clause at a pure-ASCII entry, where the
character count does equal the UTF-8 byte length. -/
theorem metadata_info_spec_witness :
    (generate_sipmetadata_info exArch exMetaAscii).size
      = (utf8Encode exMetaAscii.content).length :=
  ((metadata_info_spec exArch).2 exMetaAscii).2.2 (by decide)

/-- C4 counterexample: for a concrete run with no fetched entry, the
tag-files are generated in the order payload manifest (`manifest-md5.txt`),
format-declaration (`bagit.txt`), package-info (`bag-info.txt`),
tag-manifest — not in the claimed order package-info before the payload
manifest and the format-declaration. -/
theorem tagfile_order_counterexample :
    bagitFileNames (generate_bagit_files exArch exDataFilesC4 exTagsC4)
      = Except.ok
          ["manifest-md5.txt", "bagit.txt", "bag-info.txt",
           "tagmanifest-md5.txt"]
    ∧ ¬ (bagitFileNames (generate_bagit_files exArch exDataFilesC4 exTagsC4)
      = Except.ok
          ["bag-info.txt", "manifest-md5.txt", "bagit.txt",
           "tagmanifest-md5.txt"]) := by
  decide

/-- C4 (amended): the tag-files are generated in the fixed order fetch-list
(only when at least one entry is marked fetched), then the payload manifest
of checksums (`manifest-md5.txt`), then the format-declaration
(`bagit.txt`), then the package-info tags file (`bag-info.txt`), and the
tag-manifest last — computed by `get_tagmanifest` over the already-final
content of all preceding tag-files. -/
theorem tagfile_order_spec :
    ∀ (a : Archiver) (files : List FileInfo)
      (tags : List (String × String)) (out : List FileInfo),
      generate_bagit_files a files tags = Except.ok out →
      (out.map (fun fi => fi.filename.getD ""))
        = (if files.any (fun fi => isFetched fi) then ["fetch.txt"] else [])
          ++ ["manifest-md5.txt", "bagit.txt", "bag-info.txt",
              "tagmanifest-md5.txt"]
      ∧ ∃ pre tagfi, out = pre ++ [tagfi]
          ∧ tagfi.filename = some "tagmanifest-md5.txt"
          ∧ get_tagmanifest pre
              = Except.ok ("tagmanifest-md5.txt", tagfi.content.getD "") := by
  intro a files tags out h
  simp only [generate_bagit_files] at h
  cases hm : get_manifest_file files with
  | error e =>
    rw [hm] at h
    exact Except.noConfusion h
  | ok manifest =>
    rw [hm] at h
    simp only at h
    cases ht : get_tagmanifest
        (((if files.any (fun fi => isFetched fi) then
              [get_fetch_file files]
            else [])
          ++ [manifest, get_bagit_file, get_baginfo_file tags]).map
          (mkTagFileInfo a)) with
    | error e =>
      rw [ht] at h
      exact Except.noConfusion h
    | ok tagm =>
      rw [ht] at h
      cases h
      have hm1 : manifest.1 = "manifest-md5.txt" :=
        get_manifest_file_ok_fst files manifest hm
      have ht1 : tagm = ("tagmanifest-md5.txt", tagm.2) :=
        get_tagmanifest_ok_shape _ tagm ht
      have htag1 : tagm.1 = "tagmanifest-md5.txt" := congrArg Prod.fst ht1
      constructor
      · rw [List.map_append, List.map_map]
        have hcomp :
            ((fun fi => fi.filename.getD "") ∘ mkTagFileInfo a)
              = fun nc : String × String => nc.1 := rfl
        rw [hcomp]
        by_cases hf : files.any (fun fi => isFetched fi) = true
        · rw [if_pos hf, if_pos hf]
          simp [get_fetch_file, hm1, mkTagFileInfo, save_file_dry, htag1]
          exact ⟨rfl, rfl⟩
        · rw [if_neg hf, if_neg hf]
          simp [hm1, mkTagFileInfo, save_file_dry, htag1]
          exact ⟨rfl, rfl⟩
      · refine ⟨_, mkTagFileInfo a tagm, rfl, ?_, ?_⟩
        · show some tagm.1 = some "tagmanifest-md5.txt"
          rw [show tagm.1 = "tagmanifest-md5.txt" from congrArg Prod.fst ht1]
        · show get_tagmanifest _ = Except.ok ("tagmanifest-md5.txt", tagm.2)
          rw [ht, ← ht1]

/-- C4 witness: the amended order theorem applied to the concrete run with
no fetched entries. -/
theorem tagfile_order_spec_witness :
    bagitFileNames (generate_bagit_files exArch exDataFilesC4 exTagsC4)
      = Except.ok
          ["manifest-md5.txt", "bagit.txt", "bag-info.txt",
           "tagmanifest-md5.txt"] := by
  have h := tagfile_order_spec exArch exDataFilesC4 exTagsC4 exBagitOut rfl
  have hb : bagitFileNames (generate_bagit_files exArch exDataFilesC4
      exTagsC4) = Except.ok (exBagitOut.map (fun fi => fi.filename.getD ""))
      := rfl
  rw [hb, h.1]
  decide

/-- C2: archiving the same submission twice produces an identical manifest
record — the second `bagit_create` call finds the existing `'bagit'`
metadata record and reuses it instead of recomputing it (even at a different
wall-clock timestamp `bd2`) — and rewrites only the very same bytes to the
very same paths, so the archive state after the second call is exactly the
state after the first and no on-disk file is duplicated; the returned file
information is also identical. -/
theorem bagit_create_idempotent :
    ∀ (a : Archiver) (bd1 bd2 : String) (patch_of : Option BagitMeta)
      (imf : Bool) (st0 st1 : ArchState) (out1 : List FileInfo),
      bagit_create a bd1 patch_of imf st0 = Except.ok (st1, out1) →
      bagit_create a bd2 patch_of imf st1 = Except.ok (st1, out1) := by
  intro a bd1 bd2 patch_of imf st0 st1 out1 h
  have main : ∀ m : BagitMeta, ∀ d0 : String → Option String,
      bagit_write_phase a (some m) d0 m = (st1, out1) →
      bagit_create a bd2 patch_of imf st1 = Except.ok (st1, out1) := by
    intro m d0 hph
    unfold bagit_write_phase at hph
    rw [Prod.mk.injEq] at hph
    obtain ⟨hst, hout⟩ := hph
    rw [← hst, ← hout]
    simp only [bagit_create]
    unfold bagit_write_phase
    rw [diskWrites_pair_idem]
  cases hdb : st0.db with
  | some m =>
    simp only [bagit_create, hdb] at h
    injection h with h2
    exact main m st0.disk h2
  | none =>
    simp only [bagit_create, hdb] at h
    cases hc : create_bagit_metadata a bd1 patch_of imf with
    | error e =>
      rw [hc] at h
      exact Except.noConfusion h
    | ok m =>
      rw [hc] at h
      injection h with h2
      exact main m st0.disk h2

/-- C2 witness: the idempotence theorem applied to a concrete archiver;
re-running `bagit_create` on the state left by the first run returns that
very state and output unchanged. -/
theorem bagit_create_idempotent_witness :
    bagit_create exArch "2018-02-02" none false exFirst.1
      = Except.ok (exFirst.1, exFirst.2) :=
  bagit_create_idempotent exArch "2017-01-01" "2018-02-02" none false
    exSt0 exFirst.1 exFirst.2 rfl

end SipStore
